import Mathlib

/-!
Verification of the block consensus checks in
`zebra-consensus/src/block/check.rs`.

The file embeds the four check functions (`coinbase_is_first`,
`equihash_solution_is_valid`, `time_is_valid_at`, `subsidy_is_correct`)
as pure Lean functions.  Collaborators that live outside this crate
(the halving-divisor schedule, the founders-reward schedule, the
network-upgrade activation table and the founders-reward amount
computation) are passed in as an explicit environment, since the
checks are parametric in them.  Rust panics (`unreachable!`,
`unimplemented!`, `expect`) are modelled by an explicit `panic`
outcome, distinguished from an ordinarily returned `Result`.
-/

namespace ZebraCheck

/-- The network parameter: a closed enumeration selecting schedule tables. -/
inductive Network where
  | Mainnet
  | Testnet
deriving DecidableEq, Repr

/-- A transaction output; this core inspects only the amount.  The
destination is kept opaque (as a number) to express that it is never
examined. -/
structure Output where
  amount : Int
  destination : Nat
deriving DecidableEq, Repr

/-- A transaction, reduced to the fields the checks read: the coinbase
flag, whether any of its inputs carries the coinbase marker, the block
height encoded in its coinbase input (when it has one), and its outputs. -/
structure Transaction where
  is_coinbase : Bool
  contains_coinbase_input : Bool
  encoded_height : Option Nat
  outputs : List Output
deriving DecidableEq, Repr

/-- A block header, reduced to the fields the checks read: the declared
time (seconds) and the equihash solution (opaque bytes, as a number). -/
structure Header where
  time : Int
  solution : Nat
deriving DecidableEq, Repr

/-- A block: a header and an ordered sequence of transactions. -/
structure Block where
  header : Header
  transactions : List Transaction
deriving DecidableEq, Repr

/-- Transaction-level errors surfaced by the block checks. -/
inductive TransactionError where
  | CoinbasePosition
  | CoinbaseInputFound
deriving DecidableEq, Repr

/-- Subsidy errors.  `FundingStreamNotImplemented` appears in the
spec's error taxonomy; `check.rs` itself never constructs it (the
funding-stream branch panics via `unimplemented!`). -/
inductive SubsidyError where
  | NoCoinbase
  | FoundersRewardNotFound
  | FundingStreamNotImplemented
deriving DecidableEq, Repr

/-- Block-level errors, with the `From` conversions used by `?` in the
source folded into constructors. -/
inductive BlockError where
  | NoTransactions
  | Transaction (e : TransactionError)
  | Subsidy (e : SubsidyError)
deriving DecidableEq, Repr

/-- The timestamp check's single error kind. -/
inductive TimeError where
  | FutureTimeLimitExceeded
deriving DecidableEq, Repr

/-- Equihash solution-invalidity reasons (opaque to this core). -/
inductive EquihashError where
  | malformed
  | mismatched
  | failed
deriving DecidableEq, Repr

/-- The messages of the panics reachable from `subsidy_is_correct`, in
source order: the `expect` on the Canopy activation lookup, the
`unreachable!` below `SLOW_START_INTERVAL`, the `unreachable!` on a
non-power-of-two halving divisor, the `expect` on the founders-reward
amount, and the `unimplemented!` in the funding-stream branch. -/
inductive PanicMsg where
  | canopyActivationUnknown
  | belowSlowStart
  | invalidHalvingDivisor
  | invalidFoundersRewardAmount
  | fundingStreamUnimplemented
deriving DecidableEq, Repr

/-- The outcome of running a Rust function that may panic: either a
panic with a message, or an ordinarily returned value. -/
inductive PanicOr (α : Type) where
  | panic (msg : PanicMsg)
  | ret (a : α)
deriving DecidableEq, Repr

/-- True exactly on the `panic` outcome. -/
def PanicOr.isPanic {α : Type} : PanicOr α → Bool
  | .panic _ => true
  | .ret _ => false

/-- Helper for `countOnes`: the first argument is fuel bounding the
recursion depth, so that the definition is structurally recursive and
computes by kernel reduction.  Any fuel of at least the bit length of
`n` gives the bit count of `n`. -/
def countOnesAux : Nat → Nat → Nat
  | 0, _ => 0
  | fuel + 1, n => if n = 0 then 0 else n % 2 + countOnesAux fuel (n / 2)

/-- Number of one bits in the binary representation of a natural
number; embeds `u64::count_ones`.  `n` itself is enough fuel since the
bit length of `n` is at most `n`. -/
def countOnes (n : Nat) : Nat := countOnesAux n n

/-- Modelled from the spec: `Block::coinbase_height` lives in
`zebra-chain`, outside this crate.  "Derive `height` from the block's
coinbase transaction; fail ... if no coinbase transaction exists or
height cannot be derived" — the height is "obtained from the coinbase
transaction's encoded height (absence ⇒ invalid block)". -/
def Block.coinbase_height (b : Block) : Option Nat :=
  b.transactions.head?.bind (fun tx => tx.encoded_height)

/-- Modelled from the spec: `subsidy::general::find_output_with_amount`
lives outside `check.rs`.  "`find_outputs_with_amount(transaction,
amount) -> sequence of matches`" returning the "outputs ... whose
amount exactly equals the expected reward (amount-only match)". -/
def find_output_with_amount (tx : Transaction) (amount : Int) : List Output :=
  tx.outputs.filter (fun o => o.amount = amount)

/-- The collaborators `subsidy_is_correct` consumes, all externally
supplied pure functions or configuration:
`SLOW_START_INTERVAL` (a protocol constant),
`subsidy::general::halving_divisor`,
`NetworkUpgrade::Canopy.activation_height` (the network-upgrade
activation table, `none` when the table has no entry), and
`subsidy::founders_reward::founders_reward` (`none` models a returned
`Err`, which the source `expect`s). -/
structure SubsidyEnv where
  slow_start_interval : Nat
  halving_divisor : Nat → Network → Nat
  canopy_activation_height : Network → Option Nat
  founders_reward : Nat → Network → Option Int

/-- Embeds `coinbase_is_first` (check.rs lines 26-40): first
transaction must exist and be a coinbase, and no later transaction may
contain a coinbase-style input. -/
def coinbase_is_first (block : Block) : Except BlockError Unit :=
  match block.transactions.head? with
  | none => .error .NoTransactions
  | some first =>
    if !first.is_coinbase then
      .error (.Transaction .CoinbasePosition)
    else if (block.transactions.drop 1).any
        (fun tx => tx.contains_coinbase_input) then
      .error (.Transaction .CoinbaseInputFound)
    else
      .ok ()

/-- Embeds `equihash_solution_is_valid` (check.rs lines 43-45): a thin
wrapper calling the external solution-check primitive
`header.solution.check(&header)`, passed here as `chk`. -/
def equihash_solution_is_valid
    (chk : Nat → Header → Except EquihashError Unit) (header : Header) :
    Except EquihashError Unit :=
  chk header.solution header

/-- Modelled from the spec: `Header::is_time_valid_at` lives in
`zebra-chain`, outside this crate.  "valid iff `header.time <= now + 2
hours` (boundary inclusive)", failing with the single error kind
`FutureTimeLimitExceeded`.  Times are in seconds. -/
def Header.is_time_valid_at (header : Header) (now : Int) :
    Except TimeError Unit :=
  if header.time ≤ now + 7200 then .ok () else .error .FutureTimeLimitExceeded

/-- Embeds `time_is_valid_at` (check.rs lines 61-63): a thin wrapper
over `header.is_time_valid_at(now)`, with `now` an explicit caller
argument. -/
def time_is_valid_at (header : Header) (now : Int) : Except TimeError Unit :=
  header.is_time_valid_at now

/-- Embeds `subsidy_is_correct` (check.rs lines 66-106), with panics
(`expect`, `unreachable!`, `unimplemented!`) as explicit `panic`
outcomes, in source order. -/
def subsidy_is_correct (env : SubsidyEnv) (network : Network)
    (block : Block) : PanicOr (Except BlockError Unit) :=
  match block.coinbase_height with
  | none => .ret (.error (.Subsidy .NoCoinbase))
  | some height =>
    match block.transactions.head? with
    | none => .ret (.error (.Subsidy .NoCoinbase))
    | some coinbase =>
      let halving_div := env.halving_divisor height network
      match env.canopy_activation_height network with
      | none => .panic .canopyActivationUnknown
      | some canopy_activation =>
        if height < env.slow_start_interval then
          .panic .belowSlowStart
        else if countOnes halving_div ≠ 1 then
          .panic .invalidHalvingDivisor
        else if height < canopy_activation then
          match env.founders_reward height network with
          | none => .panic .invalidFoundersRewardAmount
          | some fr =>
            if !(find_output_with_amount coinbase fr).isEmpty then
              .ret (.ok ())
            else
              .ret (.error (.Subsidy .FoundersRewardNotFound))
        else if halving_div < 4 then
          .panic .fundingStreamUnimplemented
        else
          .ret (.ok ())

/-- Replace an output's destination, leaving its amount unchanged;
used to state that the checks never examine destinations. -/
def Output.mapDest (f : Nat → Nat) (o : Output) : Output :=
  { o with destination := f o.destination }

/-- Apply `Output.mapDest` to every output of a transaction. -/
def Transaction.mapDest (f : Nat → Nat) (tx : Transaction) : Transaction :=
  { tx with outputs := tx.outputs.map (Output.mapDest f) }

/-- Apply `Transaction.mapDest` to every transaction of a block. -/
def Block.mapDest (f : Nat → Nat) (b : Block) : Block :=
  { b with transactions := b.transactions.map (Transaction.mapDest f) }

/-! Concrete fixtures used to evaluate the checks at explicit inputs. -/

/-- A fixed header. -/
def hdr0 : Header := { time := 0, solution := 0 }

/-- A coinbase transaction encoding height `h` with outputs `outs`. -/
def coinbaseTx (h : Nat) (outs : List Output) : Transaction :=
  { is_coinbase := true, contains_coinbase_input := true,
    encoded_height := some h, outputs := outs }

/-- A non-coinbase transaction with no coinbase-style input. -/
def plainTx : Transaction :=
  { is_coinbase := false, contains_coinbase_input := false,
    encoded_height := none, outputs := [] }

/-- A non-coinbase transaction that nevertheless contains a
coinbase-style input. -/
def badInputTx : Transaction :=
  { is_coinbase := false, contains_coinbase_input := true,
    encoded_height := none, outputs := [] }

/-- A block with the fixed header and the given transactions. -/
def mkBlock (txs : List Transaction) : Block :=
  { header := hdr0, transactions := txs }

/-- Environment whose schedules place heights ≥ 5 in the
funding-stream era (halving divisor 2, Canopy at 5). -/
def envFundingStream : SubsidyEnv :=
  { slow_start_interval := 0,
    halving_divisor := fun _ _ => 2,
    canopy_activation_height := fun _ => some 5,
    founders_reward := fun _ _ => some 10 }

/-- Environment whose schedules place heights < 100 in the
founders-reward era (halving divisor 1, Canopy at 100, reward 10). -/
def envFounders : SubsidyEnv :=
  { slow_start_interval := 0,
    halving_divisor := fun _ _ => 1,
    canopy_activation_height := fun _ => some 100,
    founders_reward := fun _ _ => some 10 }

/-- Environment past the second halving (halving divisor 4, Canopy at 5). -/
def envPostHalving : SubsidyEnv :=
  { slow_start_interval := 0,
    halving_divisor := fun _ _ => 4,
    canopy_activation_height := fun _ => some 5,
    founders_reward := fun _ _ => some 10 }

/-- Environment whose activation table has no Canopy entry. -/
def envNoCanopy : SubsidyEnv :=
  { slow_start_interval := 0,
    halving_divisor := fun _ _ => 1,
    canopy_activation_height := fun _ => none,
    founders_reward := fun _ _ => some 10 }

/-- Environment with slow-start interval 20. -/
def envSlowStart : SubsidyEnv :=
  { slow_start_interval := 20,
    halving_divisor := fun _ _ => 1,
    canopy_activation_height := fun _ => some 100,
    founders_reward := fun _ _ => some 10 }

/-- Environment whose halving-divisor collaborator returns 3, which is
not a power of two. -/
def envBadDivisor : SubsidyEnv :=
  { slow_start_interval := 0,
    halving_divisor := fun _ _ => 3,
    canopy_activation_height := fun _ => some 100,
    founders_reward := fun _ _ => some 10 }

/-- Environment whose founders-reward collaborator returns an error. -/
def envNoFoundersReward : SubsidyEnv :=
  { slow_start_interval := 0,
    halving_divisor := fun _ _ => 1,
    canopy_activation_height := fun _ => some 100,
    founders_reward := fun _ _ => none }

/-! Theorems. -/

/-- If a coinbase height is derivable, the transaction list is
non-empty and the height comes from the first transaction. -/
theorem coinbase_height_eq_some {b : Block} {h : Nat}
    (hh : b.coinbase_height = some h) :
    ∃ tx rest, b.transactions = tx :: rest ∧ tx.encoded_height = some h := by
  unfold Block.coinbase_height at hh
  cases htx : b.transactions with
  | nil => rw [htx] at hh; simp at hh
  | cons tx rest =>
    rw [htx] at hh
    simp only [List.head?_cons, Option.bind_some] at hh
    exact ⟨tx, rest, rfl, hh⟩

/-- `countOnesAux` does not depend on the fuel, as long as the fuel is
at least its argument. -/
theorem countOnesAux_congr :
    ∀ (f1 f2 n : Nat), n ≤ f1 → n ≤ f2 →
      countOnesAux f1 n = countOnesAux f2 n := by
  intro f1
  induction f1 with
  | zero =>
    intro f2 n h1 _
    have hn : n = 0 := Nat.le_zero.mp h1
    subst hn
    cases f2 <;> simp [countOnesAux]
  | succ f ih =>
    intro f2 n h1 h2
    cases f2 with
    | zero =>
      have hn : n = 0 := Nat.le_zero.mp h2
      subst hn
      simp [countOnesAux]
    | succ g =>
      by_cases hn : n = 0
      · subst hn; simp [countOnesAux]
      · simp only [countOnesAux, hn, if_false]
        congr 1
        exact ih g (n / 2) (by omega) (by omega)

/-- Unfolding equation for `countOnes` on a non-zero argument. -/
theorem countOnes_unfold (n : Nat) (hn : n ≠ 0) :
    countOnes n = n % 2 + countOnes (n / 2) := by
  unfold countOnes
  cases n with
  | zero => exact absurd rfl hn
  | succ m =>
    simp only [countOnesAux, Nat.succ_ne_zero, if_false]
    congr 1
    exact countOnesAux_congr m ((m + 1) / 2) ((m + 1) / 2) (by omega) (by omega)

/-- `countOnes` vanishes only at zero. -/
theorem countOnes_eq_zero_iff (n : Nat) : countOnes n = 0 ↔ n = 0 := by
  induction n using Nat.strong_induction_on with
  | _ n ih =>
    by_cases hn : n = 0
    · subst hn; simp [countOnes, countOnesAux]
    · rw [countOnes_unfold n hn]
      constructor
      · intro h
        have h2 : countOnes (n / 2) = 0 := by omega
        have h3 : n / 2 = 0 := (ih (n / 2) (by omega)).mp h2
        omega
      · intro h; exact absurd h hn

/-- `countOnes n = 1` exactly when `n` is a (non-zero) power of two:
the source's `halving_div.count_ones() != 1` test is the
non-power-of-two test. -/
theorem countOnes_eq_one_iff (n : Nat) :
    countOnes n = 1 ↔ ∃ k, n = 2 ^ k := by
  induction n using Nat.strong_induction_on with
  | _ n ih =>
    by_cases hn : n = 0
    · subst hn
      constructor
      · intro h; simp [countOnes, countOnesAux] at h
      · rintro ⟨k, hk⟩
        have hpos : 0 < 2 ^ k := Nat.pos_pow_of_pos k (by omega)
        omega
    · rw [countOnes_unfold n hn]
      rcases Nat.even_or_odd n with he | ho
      · have h2 : n % 2 = 0 := Nat.even_iff.mp he
        rw [h2, Nat.zero_add, ih (n / 2) (by omega)]
        constructor
        · rintro ⟨k, hk⟩
          refine ⟨k + 1, ?_⟩
          rw [pow_succ]
          omega
        · rintro ⟨k, hk⟩
          cases k with
          | zero => simp at hk; omega
          | succ j =>
            refine ⟨j, ?_⟩
            rw [pow_succ] at hk
            omega
      · have h2 : n % 2 = 1 := Nat.odd_iff.mp ho
        rw [h2]
        constructor
        · intro h
          have h3 : countOnes (n / 2) = 0 := by omega
          have h4 : n / 2 = 0 := (countOnes_eq_zero_iff _).mp h3
          have h5 : n = 1 := by omega
          exact ⟨0, by simp [h5]⟩
        · rintro ⟨k, hk⟩
          cases k with
          | zero =>
            simp at hk
            subst hk
            norm_num [countOnes, countOnesAux]
          | succ j =>
            rw [pow_succ] at hk
            omega

/-- A panicking outcome is never an ordinarily returned one. -/
theorem PanicOr.ne_ret_of_isPanic {α : Type} {p : PanicOr α}
    (h : p.isPanic = true) (r : α) : p ≠ .ret r := by
  intro hr
  rw [hr] at h
  simp [PanicOr.isPanic] at h

/-- Reduction of `subsidy_is_correct` on a block whose first
transaction encodes height `h`. -/
theorem subsidy_is_correct_cons (env : SubsidyEnv) (network : Network)
    (hdr : Header) (cb : Transaction) (rest : List Transaction) (h : Nat)
    (henc : cb.encoded_height = some h) :
    subsidy_is_correct env network ⟨hdr, cb :: rest⟩ =
      match env.canopy_activation_height network with
      | none => .panic .canopyActivationUnknown
      | some canopy_activation =>
        if h < env.slow_start_interval then
          .panic .belowSlowStart
        else if countOnes (env.halving_divisor h network) ≠ 1 then
          .panic .invalidHalvingDivisor
        else if h < canopy_activation then
          match env.founders_reward h network with
          | none => .panic .invalidFoundersRewardAmount
          | some fr =>
            if !(find_output_with_amount cb fr).isEmpty then
              .ret (.ok ())
            else
              .ret (.error (.Subsidy .FoundersRewardNotFound))
        else if env.halving_divisor h network < 4 then
          .panic .fundingStreamUnimplemented
        else
          .ret (.ok ()) := by
  unfold subsidy_is_correct Block.coinbase_height
  simp [henc]

/-- The output-amount search finds a match exactly when some output of
the transaction carries the given amount. -/
theorem find_output_isEmpty_iff (tx : Transaction) (a : Int) :
    (find_output_with_amount tx a).isEmpty = false
      ↔ ∃ o ∈ tx.outputs, o.amount = a := by
  unfold find_output_with_amount
  induction tx.outputs with
  | nil => simp
  | cons o tl ih =>
    by_cases h : o.amount = a
    · simp [List.filter_cons, h]
    · simp [List.filter_cons, h, ih]

/-- Replacing destinations does not change whether an amount-filter
result is empty. -/
theorem filter_amount_mapDest_isEmpty (f : Nat → Nat) (l : List Output)
    (a : Int) :
    ((l.map (Output.mapDest f)).filter (fun o => o.amount = a)).isEmpty
      = (l.filter (fun o => o.amount = a)).isEmpty := by
  induction l with
  | nil => rfl
  | cons o tl ih =>
    by_cases hoa : o.amount = a
    · simp [List.filter_cons, Output.mapDest, hoa]
    · simp [List.filter_cons, Output.mapDest, hoa, ih]

/-- The output-amount search is insensitive to destinations. -/
theorem find_output_with_amount_mapDest (f : Nat → Nat) (tx : Transaction)
    (a : Int) :
    (find_output_with_amount (Transaction.mapDest f tx) a).isEmpty
      = (find_output_with_amount tx a).isEmpty :=
  filter_amount_mapDest_isEmpty f tx.outputs a

/-- C3: the coinbase structure check returns `NoTransactions` on an
empty transaction list; otherwise `CoinbasePosition` when the first
transaction is not a coinbase; otherwise `CoinbaseInputFound` exactly
when some later transaction contains a coinbase-style input; and
succeeds otherwise. -/
theorem coinbase_is_first_spec (block : Block) :
    (block.transactions = [] →
      coinbase_is_first block = .error .NoTransactions)
    ∧ (∀ first rest, block.transactions = first :: rest →
        (first.is_coinbase = false →
          coinbase_is_first block = .error (.Transaction .CoinbasePosition))
        ∧ (first.is_coinbase = true →
          (coinbase_is_first block = .error (.Transaction .CoinbaseInputFound)
            ↔ ∃ tx ∈ rest, tx.contains_coinbase_input = true)
          ∧ ((∀ tx ∈ rest, tx.contains_coinbase_input = false) →
            coinbase_is_first block = .ok ()))) := by
  constructor
  · intro h
    simp [coinbase_is_first, h]
  · intro first rest h
    constructor
    · intro hcb
      simp [coinbase_is_first, h, hcb]
    · intro hcb
      constructor
      · by_cases hany : ∃ tx ∈ rest, tx.contains_coinbase_input = true
        · simp [coinbase_is_first, h, hcb, List.any_eq_true, hany]
        · simp [coinbase_is_first, h, hcb, List.any_eq_true, hany]
      · intro hnone
        have hany : ¬ rest.any (fun tx => tx.contains_coinbase_input) = true := by
          simp only [List.any_eq_true, not_exists]
          intro tx hmem
          exact absurd hmem.2 (by simp [hnone tx hmem.1])
        simp [coinbase_is_first, h, hcb, hany]

/-- C4: the timestamp check succeeds iff `header.time ≤ now + 2 hours`,
with the boundary inclusive: exactly two hours ahead is valid, one
second beyond fails with `FutureTimeLimitExceeded`, and `now` itself is
valid. -/
theorem time_is_valid_at_spec (header : Header) (now : Int) :
    (time_is_valid_at header now = .ok () ↔ header.time ≤ now + 7200)
    ∧ (header.time = now + 7200 → time_is_valid_at header now = .ok ())
    ∧ (header.time = now + 7200 + 1 →
        time_is_valid_at header now = .error .FutureTimeLimitExceeded)
    ∧ (header.time = now → time_is_valid_at header now = .ok ()) := by
  unfold time_is_valid_at Header.is_time_valid_at
  refine ⟨?_, ?_, ?_, ?_⟩
  · split
    · simp [*]
    · simp only [reduceCtorEq, false_iff]
      omega
  · intro h; rw [if_pos (by omega)]
  · intro h; rw [if_neg (by omega)]
  · intro h; rw [if_pos (by omega)]

/-- C6: when no coinbase height is derivable (no coinbase transaction
or no encoded height), the subsidy check returns `NoCoinbase` — for
every environment and network, so no collaborator call or precondition
check influences the result. -/
theorem subsidy_no_coinbase_spec (env : SubsidyEnv) (network : Network)
    (block : Block) (hh : block.coinbase_height = none) :
    subsidy_is_correct env network block
      = .ret (.error (.Subsidy .NoCoinbase)) := by
  unfold subsidy_is_correct
  rw [hh]

/-- Witness for C6: a block with no transactions, under an environment
whose activation table would panic if it were consulted. -/
theorem subsidy_no_coinbase_witness :
    subsidy_is_correct envNoCanopy Network.Mainnet (mkBlock [])
      = .ret (.error (.Subsidy .NoCoinbase)) :=
  subsidy_no_coinbase_spec envNoCanopy Network.Mainnet (mkBlock []) rfl

/-- C9: when the activation table has no Canopy entry, the subsidy
check panics (the `expect` on the activation lookup) rather than
returning a validation error. -/
theorem subsidy_canopy_unknown_panics (env : SubsidyEnv) (network : Network)
    (block : Block) (h : Nat)
    (hh : block.coinbase_height = some h)
    (hc : env.canopy_activation_height network = none) :
    subsidy_is_correct env network block = .panic .canopyActivationUnknown := by
  obtain ⟨cb, rest, htx, henc⟩ := coinbase_height_eq_some hh
  obtain ⟨hdr, txs⟩ := block
  change txs = cb :: rest at htx
  subst htx
  rw [subsidy_is_correct_cons env network hdr cb rest h henc]
  simp only [hc]

/-- Witness for C9. -/
theorem subsidy_canopy_unknown_witness :
    subsidy_is_correct envNoCanopy Network.Mainnet
        (mkBlock [coinbaseTx 10 []]) = .panic .canopyActivationUnknown :=
  subsidy_canopy_unknown_panics envNoCanopy Network.Mainnet
    (mkBlock [coinbaseTx 10 []]) 10 rfl rfl

/-- C7: a derivable height below the slow-start interval, or a halving
divisor that is not a non-zero power of two, makes the subsidy check
panic (the two `unreachable!` arms); it never returns an ordinary
result for these conditions. -/
theorem subsidy_internal_invariant_panics (env : SubsidyEnv)
    (network : Network) (block : Block) (h : Nat)
    (hh : block.coinbase_height = some h)
    (hinv : h < env.slow_start_interval
      ∨ ∀ k : Nat, env.halving_divisor h network ≠ 2 ^ k) :
    (subsidy_is_correct env network block).isPanic = true
    ∧ ∀ r : Except BlockError Unit,
        subsidy_is_correct env network block ≠ .ret r := by
  obtain ⟨cb, rest, htx, henc⟩ := coinbase_height_eq_some hh
  obtain ⟨hdr, txs⟩ := block
  change txs = cb :: rest at htx
  subst htx
  have hP : (subsidy_is_correct env network ⟨hdr, cb :: rest⟩).isPanic
      = true := by
    rw [subsidy_is_correct_cons env network hdr cb rest h henc]
    cases hc : env.canopy_activation_height network with
    | none => rfl
    | some c =>
      by_cases h1 : h < env.slow_start_interval
      · simp [h1, PanicOr.isPanic]
      · rcases hinv with hs | hk
        · exact absurd hs h1
        · have h2 : countOnes (env.halving_divisor h network) ≠ 1 := by
            intro hco
            obtain ⟨j, hj⟩ := (countOnes_eq_one_iff _).mp hco
            exact hk j hj
          simp [h1, h2, PanicOr.isPanic]
  exact ⟨hP, fun r => PanicOr.ne_ret_of_isPanic hP r⟩

/-- Witness for C7: height 10 with slow-start interval 20. -/
theorem subsidy_internal_invariant_witness :
    (subsidy_is_correct envSlowStart Network.Mainnet
        (mkBlock [coinbaseTx 10 []])).isPanic = true :=
  (subsidy_internal_invariant_panics envSlowStart Network.Mainnet
    (mkBlock [coinbaseTx 10 []]) 10 rfl (Or.inl (by decide))).1

/-- C1 (amended): in the funding-stream range (height at or above the
Canopy activation height, halving divisor below 4) the subsidy check
panics (the `unimplemented!` arm, or an earlier invariant panic) — it
never succeeds and never returns a validation error, regardless of the
coinbase outputs. -/
theorem subsidy_funding_stream_panics (env : SubsidyEnv) (network : Network)
    (block : Block) (h c : Nat)
    (hh : block.coinbase_height = some h)
    (hc : env.canopy_activation_height network = some c)
    (hch : c ≤ h)
    (hdiv : env.halving_divisor h network < 4) :
    (subsidy_is_correct env network block).isPanic = true
    ∧ ∀ r : Except BlockError Unit,
        subsidy_is_correct env network block ≠ .ret r := by
  obtain ⟨cb, rest, htx, henc⟩ := coinbase_height_eq_some hh
  obtain ⟨hdr, txs⟩ := block
  change txs = cb :: rest at htx
  subst htx
  have hP : (subsidy_is_correct env network ⟨hdr, cb :: rest⟩).isPanic
      = true := by
    rw [subsidy_is_correct_cons env network hdr cb rest h henc]
    simp only [hc]
    by_cases h1 : h < env.slow_start_interval
    · simp [h1, PanicOr.isPanic]
    · by_cases h2 : countOnes (env.halving_divisor h network) = 1
      · have h3 : ¬ h < c := by omega
        simp [h1, h2, h3, hdiv, PanicOr.isPanic]
      · simp [h1, h2, PanicOr.isPanic]
  exact ⟨hP, fun r => PanicOr.ne_ret_of_isPanic hP r⟩

/-- Witness for the amended C1. -/
theorem subsidy_funding_stream_witness :
    (subsidy_is_correct envFundingStream Network.Mainnet
        (mkBlock [coinbaseTx 10 []])).isPanic = true :=
  (subsidy_funding_stream_panics envFundingStream Network.Mainnet
    (mkBlock [coinbaseTx 10 []]) 10 5 rfl rfl (by decide) (by decide)).1

/-- Counterexample to C1 as stated: at a concrete input inside the
funding-stream range (height 10, Canopy at 5, halving divisor 2) the
subsidy check panics at the `unimplemented!` arm; it does not return
the error `FundingStreamNotImplemented`. -/
theorem subsidy_funding_stream_counterexample :
    (mkBlock [coinbaseTx 10 []]).coinbase_height = some 10
    ∧ envFundingStream.canopy_activation_height Network.Mainnet = some 5
    ∧ envFundingStream.halving_divisor 10 Network.Mainnet < 4
    ∧ subsidy_is_correct envFundingStream Network.Mainnet
        (mkBlock [coinbaseTx 10 []]) = .panic .fundingStreamUnimplemented
    ∧ subsidy_is_correct envFundingStream Network.Mainnet
        (mkBlock [coinbaseTx 10 []])
      ≠ .ret (.error (.Subsidy .FundingStreamNotImplemented)) := by
  have h4 : subsidy_is_correct envFundingStream Network.Mainnet
      (mkBlock [coinbaseTx 10 []]) = .panic .fundingStreamUnimplemented := rfl
  refine ⟨rfl, rfl, by decide, h4, fun hcontra => ?_⟩
  rw [h4] at hcontra
  exact PanicOr.noConfusion hcontra

/-- C5: at or beyond the second halving (power-of-two halving divisor
at least 4, height at or above Canopy activation and the slow-start
interval), the subsidy check succeeds whatever the coinbase outputs. -/
theorem subsidy_post_second_halving_ok (env : SubsidyEnv) (network : Network)
    (block : Block) (h c k : Nat)
    (hh : block.coinbase_height = some h)
    (hsl : env.slow_start_interval ≤ h)
    (hc : env.canopy_activation_height network = some c)
    (hch : c ≤ h)
    (hpow : env.halving_divisor h network = 2 ^ k)
    (hdiv : 4 ≤ env.halving_divisor h network) :
    subsidy_is_correct env network block = .ret (.ok ()) := by
  have hco : countOnes (env.halving_divisor h network) = 1 :=
    (countOnes_eq_one_iff _).mpr ⟨k, hpow⟩
  obtain ⟨cb, rest, htx, henc⟩ := coinbase_height_eq_some hh
  obtain ⟨hdr, txs⟩ := block
  change txs = cb :: rest at htx
  subst htx
  rw [subsidy_is_correct_cons env network hdr cb rest h henc]
  simp only [hc]
  rw [if_neg (show ¬ h < env.slow_start_interval by omega)]
  rw [if_neg (not_not_intro hco)]
  rw [if_neg (show ¬ h < c by omega)]
  rw [if_neg (show ¬ env.halving_divisor h network < 4 by omega)]

/-- Witness for C5: an output set with no special payout passes. -/
theorem subsidy_post_second_halving_witness :
    subsidy_is_correct envPostHalving Network.Mainnet
        (mkBlock [coinbaseTx 10 [⟨3, 1⟩]]) = .ret (.ok ()) :=
  subsidy_post_second_halving_ok envPostHalving Network.Mainnet
    (mkBlock [coinbaseTx 10 [⟨3, 1⟩]]) 10 5 2 rfl
    (by decide) rfl (by decide) rfl (by decide)

/-- C2: in the founders-reward era (height at least the slow-start
interval and strictly below Canopy activation, power-of-two halving
divisor, valid computed reward), the subsidy check succeeds iff some
output of the first transaction carries exactly the computed reward;
with no matching output it fails with `FoundersRewardNotFound`; and
output destinations never influence the result. -/
theorem subsidy_founders_reward_spec (env : SubsidyEnv) (network : Network)
    (block : Block) (h c k : Nat) (fr : Int)
    (cb : Transaction) (rest : List Transaction)
    (htx : block.transactions = cb :: rest)
    (hh : block.coinbase_height = some h)
    (hsl : env.slow_start_interval ≤ h)
    (hpow : env.halving_divisor h network = 2 ^ k)
    (hc : env.canopy_activation_height network = some c)
    (hch : h < c)
    (hfr : env.founders_reward h network = some fr) :
    (subsidy_is_correct env network block = .ret (.ok ())
      ↔ ∃ o ∈ cb.outputs, o.amount = fr)
    ∧ ((∀ o ∈ cb.outputs, o.amount ≠ fr) →
        subsidy_is_correct env network block
          = .ret (.error (.Subsidy .FoundersRewardNotFound)))
    ∧ (∀ f : Nat → Nat,
        subsidy_is_correct env network (Block.mapDest f block)
          = subsidy_is_correct env network block) := by
  have hco : countOnes (env.halving_divisor h network) = 1 :=
    (countOnes_eq_one_iff _).mpr ⟨k, hpow⟩
  obtain ⟨cb2, rest2, htx2, henc2⟩ := coinbase_height_eq_some hh
  rw [htx] at htx2
  injection htx2 with hcb hrest
  subst hcb
  subst hrest
  obtain ⟨hdr, txs⟩ := block
  change txs = cb :: rest at htx
  subst htx
  have hred : subsidy_is_correct env network ⟨hdr, cb :: rest⟩
      = if !(find_output_with_amount cb fr).isEmpty
        then (.ret (.ok ()) : PanicOr (Except BlockError Unit))
        else .ret (.error (.Subsidy .FoundersRewardNotFound)) := by
    rw [subsidy_is_correct_cons env network hdr cb rest h henc2]
    simp only [hc]
    rw [if_neg (show ¬ h < env.slow_start_interval by omega)]
    rw [if_neg (not_not_intro hco)]
    rw [if_pos hch]
    simp only [hfr]
  refine ⟨?_, ?_, ?_⟩
  · by_cases hex : ∃ o ∈ cb.outputs, o.amount = fr
    · have hE : (find_output_with_amount cb fr).isEmpty = false :=
        (find_output_isEmpty_iff cb fr).mpr hex
      rw [hred, hE]
      simp [hex]
    · have hE : (find_output_with_amount cb fr).isEmpty = true := by
        cases hEE : (find_output_with_amount cb fr).isEmpty
        · exact absurd ((find_output_isEmpty_iff cb fr).mp hEE) hex
        · rfl
      rw [hred, hE]
      simp [hex]
  · intro hnone
    have hex : ¬ ∃ o ∈ cb.outputs, o.amount = fr := by
      rintro ⟨o, hmem, ha⟩
      exact hnone o hmem ha
    have hE : (find_output_with_amount cb fr).isEmpty = true := by
      cases hEE : (find_output_with_amount cb fr).isEmpty
      · exact absurd ((find_output_isEmpty_iff cb fr).mp hEE) hex
      · rfl
    rw [hred, hE]
    rfl
  · intro f
    have hencf : (Transaction.mapDest f cb).encoded_height = some h := henc2
    have hmap : Block.mapDest f ⟨hdr, cb :: rest⟩
        = (⟨hdr, Transaction.mapDest f cb
              :: rest.map (Transaction.mapDest f)⟩ : Block) := rfl
    rw [hmap,
      subsidy_is_correct_cons env network hdr (Transaction.mapDest f cb)
        (rest.map (Transaction.mapDest f)) h hencf,
      hred]
    simp only [hc]
    rw [if_neg (show ¬ h < env.slow_start_interval by omega)]
    rw [if_neg (not_not_intro hco)]
    rw [if_pos hch]
    simp only [hfr]
    rw [find_output_with_amount_mapDest]

/-- Witness for C2: the coinbase carries one output of exactly the
computed reward 10, and the check succeeds. -/
theorem subsidy_founders_reward_witness :
    subsidy_is_correct envFounders Network.Mainnet
        (mkBlock [coinbaseTx 10 [⟨10, 0⟩]]) = .ret (.ok ()) :=
  (subsidy_founders_reward_spec envFounders Network.Mainnet
    (mkBlock [coinbaseTx 10 [⟨10, 0⟩]]) 10 100 0 10
    (coinbaseTx 10 [⟨10, 0⟩]) [] rfl rfl (by decide) rfl rfl (by decide)
    rfl).1.mpr ⟨⟨10, 0⟩, by decide, rfl⟩

/-- C10: in the founders-reward era, an error from the founders-reward
computation makes the subsidy check panic (the `expect` on the
collaborator result) instead of returning a validation error. -/
theorem subsidy_founders_reward_error_panics (env : SubsidyEnv)
    (network : Network) (block : Block) (h c k : Nat)
    (hh : block.coinbase_height = some h)
    (hsl : env.slow_start_interval ≤ h)
    (hpow : env.halving_divisor h network = 2 ^ k)
    (hc : env.canopy_activation_height network = some c)
    (hch : h < c)
    (hfr : env.founders_reward h network = none) :
    subsidy_is_correct env network block
      = .panic .invalidFoundersRewardAmount := by
  have hco : countOnes (env.halving_divisor h network) = 1 :=
    (countOnes_eq_one_iff _).mpr ⟨k, hpow⟩
  obtain ⟨cb, rest, htx, henc⟩ := coinbase_height_eq_some hh
  obtain ⟨hdr, txs⟩ := block
  change txs = cb :: rest at htx
  subst htx
  rw [subsidy_is_correct_cons env network hdr cb rest h henc]
  simp only [hc]
  rw [if_neg (show ¬ h < env.slow_start_interval by omega)]
  rw [if_neg (not_not_intro hco)]
  rw [if_pos hch]
  simp only [hfr]

/-- Witness for C10. -/
theorem subsidy_founders_reward_error_witness :
    subsidy_is_correct envNoFoundersReward Network.Mainnet
        (mkBlock [coinbaseTx 10 []]) = .panic .invalidFoundersRewardAmount :=
  subsidy_founders_reward_error_panics envNoFoundersReward Network.Mainnet
    (mkBlock [coinbaseTx 10 []]) 10 100 0 rfl (by decide) rfl rfl (by decide) rfl

/-- Witness for C3: the empty block is rejected with `NoTransactions`. -/
theorem coinbase_is_first_witness :
    coinbase_is_first (mkBlock []) = .error .NoTransactions :=
  (coinbase_is_first_spec (mkBlock [])).1 rfl

/-- Witness for C4: a header exactly two hours ahead of the reference
time passes the check. -/
theorem time_is_valid_at_witness :
    time_is_valid_at { time := 7200, solution := 0 } 0 = .ok () :=
  (time_is_valid_at_spec { time := 7200, solution := 0 } 0).2.1 rfl

/-- C8: the four checks are deterministic pure functions — two
invocations with identical inputs (the clock reference and the
equihash primitive being explicit inputs) return identical results. -/
theorem checks_are_deterministic :
    (∀ b : Block, coinbase_is_first b = coinbase_is_first b)
    ∧ (∀ (chk : Nat → Header → Except EquihashError Unit) (h : Header),
        equihash_solution_is_valid chk h = equihash_solution_is_valid chk h)
    ∧ (∀ (h : Header) (now : Int),
        time_is_valid_at h now = time_is_valid_at h now)
    ∧ (∀ (env : SubsidyEnv) (n : Network) (b : Block),
        subsidy_is_correct env n b = subsidy_is_correct env n b) :=
  ⟨fun _ => rfl, fun _ _ => rfl, fun _ _ => rfl, fun _ _ _ => rfl⟩

end ZebraCheck
